import Mathlib

/-!
Verification of `zephyr/lib/bugdown/__init__.py` (the Humbug/Zulip chat-markdown
dialect layer).  Each Python function used by the claims is shallowly embedded as
an executable Lean definition over `String` / `List Char`; external library code
that the source calls (the CPython 2.7 `urlparse` module, the generic markdown
engine's ordered registry) is embedded from its reference semantics where the
source depends on it.  Regular expressions from the source are embedded as
explicit matching functions on character lists with the backtracking semantics
of the concrete pattern.
-/

/-! ## Generic character/list helpers (Python string primitives) -/

/-- Python `str.find(c)`: index of the first occurrence, `none` for -1. -/
def strfind (c : Char) : List Char → Option Nat
  | [] => none
  | x :: xs => if x = c then some 0 else (strfind c xs).map (· + 1)

/-- Python `str.find(c, start)`: first occurrence at index ≥ `start`. -/
def strfindFrom (c : Char) (start : Nat) (cs : List Char) : Option Nat :=
  (strfind c (cs.drop start)).map (· + start)

/-- Python `str.rfind(c)`: index of the last occurrence, `none` for -1. -/
def strrfind (c : Char) (cs : List Char) : Option Nat :=
  (strfind c cs.reverse).map (fun k => cs.length - 1 - k)

/-- Python `s.split(c, 1)`: split at the first occurrence of `c`
    (the caller guards that `c` occurs; otherwise the whole string is the
    first component, as in Python when no separator is found). -/
def splitOnce (sep : Char) : List Char → List Char × List Char
  | [] => ([], [])
  | c :: cs =>
    if c = sep then ([], cs)
    else
      let p := splitOnce sep cs
      (c :: p.1, p.2)

/-- Concatenation of a list of character lists. -/
def listJoin : List (List Char) → List Char
  | [] => []
  | l :: ls => l ++ listJoin ls

/-- Python 2 `str.lower()` (ASCII case folding). -/
def pyLower (cs : List Char) : List Char := cs.map Char.toLower

/-- The ASCII fragment of the regex class `\w` (alphanumerics and
    underscore), used to embed the autolink regex, whose claims evaluate it
    on ASCII inputs only; `\w` agrees with this on the ASCII range.  The
    privacy redaction below instead takes the full Unicode-aware class as a
    parameter. -/
def isWordChar (c : Char) : Bool := c.isAlphanum || c = '_'

/-- The regex class `\s` (Python whitespace), ASCII range. -/
def isPySpace (c : Char) : Bool :=
  c = ' ' || c = '\t' || c = '\n' || c = '\r' || c = '\x0b' || c = '\x0c'

/-- Python `str.strip()`: remove leading and trailing whitespace. -/
def pyStrip (s : String) : String :=
  String.mk (((s.data.dropWhile isPySpace).reverse.dropWhile isPySpace).reverse)

/-! ## The bullet-line regex

`UListProcessor.RE` and `BugdownUListPreprocessor.LI_RE` are both the pattern
`^[ ]{0,3}[*][ ]+(.*)` used via `re.match` (prefix matching at position 0;
`(.*)` can be empty, so the pattern matches exactly when the line starts with
at most three spaces, then `*`, then at least one space). -/

def liMatchL (cs : List Char) : Bool :=
  let sp := cs.takeWhile (fun c => c = ' ')
  decide (sp.length ≤ 3) &&
    (match cs.drop sp.length with
     | '*' :: ' ' :: _ => true
     | _ => false)

/-- `re.match` of `^[ ]{0,3}[*][ ]+(.*)` against a line. -/
def liMatch (l : String) : Bool := liMatchL l.data

/-! ## The fence regex -/

/-- Tag characters of a fenced-code language tag (`[a-zA-Z0-9_+-]`). -/
def isLangChar (c : Char) : Bool := c.isAlphanum || c = '_' || c = '+' || c = '-'

/-- Whether the text after the fence run is an (optional) language tag:
    spaces, then tag characters, then spaces, then end of line. -/
def isLangTagRest (cs : List Char) : Bool :=
  ((cs.dropWhile (fun c => c = ' ')).dropWhile isLangChar).dropWhile (fun c => c = ' ') = []

/-- Modelled from the spec: `FENCE_RE` of `zephyr.lib.bugdown.fenced_code`
    (that module is not under src/).  Spec §4.2: a line matches the fence
    grammar when it consists of a run of three or more identical fence
    characters (backtick or tilde) optionally followed by a language tag;
    the `fence` group is the run itself. -/
def fenceMatch (l : String) : Option String :=
  match l.data with
  | [] => none
  | c :: _ =>
    if c = '`' ∨ c = '~' then
      let run := l.data.takeWhile (fun x => x = c)
      if 3 ≤ run.length ∧ isLangTagRest (l.data.drop run.length) then
        some (String.mk run)
      else none
    else none

/-! ## BugdownUListPreprocessor -/

/-- One step of the fence-state update in `BugdownUListPreprocessor.run`:
    `if not fence and m: fence = m.group('fence')`
    `elif fence and m and fence == m.group('fence'): fence = None`. -/
def fenceStep (fence : Option String) (line : String) : Option String :=
  match fenceMatch line, fence with
  | some g, none => some g
  | some g, some f => if f = g then none else some f
  | none, f => f

/-- `BugdownUListPreprocessor.run`, with the loop over `i` and the
    `copy.insert(i+inserts+1, '')` bookkeeping rendered as a structural
    recursion: the insertion position `i+inserts+1` is exactly the slot
    directly after the copy's image of original line `i`, so the loop emits,
    per position `i < len-1`, line `i` followed by an optional empty line. -/
def bugdownUListRunAux (fence : Option String) : List String → List String
  | [] => []
  | [x] => [x]
  | x :: y :: rest =>
    let fence2 := fenceStep fence x
    if fence2 = none ∧ x ≠ "" ∧ liMatch y = true ∧ liMatch x = false then
      x :: "" :: bugdownUListRunAux fence2 (y :: rest)
    else
      x :: bugdownUListRunAux fence2 (y :: rest)

/-- `BugdownUListPreprocessor.run` (initial fence state `None`). -/
def bugdownUListRun (lines : List String) : List String :=
  bugdownUListRunAux none lines

/-- The fence state after the loop has processed lines `0..i` inclusive. -/
def fenceAfter (lines : List String) (i : Nat) : Option String :=
  (lines.take (i + 1)).foldl fenceStep none

/-- The segment of the claim's output at position `i` (for a scan that
    started in fence state `fence`): line `i`, followed by one inserted
    empty line exactly when the pair `(lines[i], lines[i+1])` is not inside
    an open fenced region (fence state after line `i`), line `i` is
    non-empty and not a bullet line, and line `i+1` is a bullet line. -/
def hangingSeg (lines : List String) (fence : Option String) (i : Nat) : List String :=
  lines.getD i "" ::
    (if (lines.take (i + 1)).foldl fenceStep fence = none ∧ lines.getD i "" ≠ "" ∧
        liMatch (lines.getD (i + 1) "") = true ∧ liMatch (lines.getD i "") = false
     then [""] else [])

/-- The output sequence described by the claim: every original line in
    order, with the empty-line insertions of `hangingSeg` (note
    `(lines.take (i+1)).foldl fenceStep none = fenceAfter lines i`). -/
def hangingSpec (lines : List String) : List String :=
  (List.range (lines.length - 1)).flatMap (hangingSeg lines none) ++
  lines.drop (lines.length - 1)

/-! ## CPython 2.7 `urlparse` (external library called by `sanitize_url`) -/

/-- `urlparse.uses_fragment` (CPython 2.7). -/
def uses_fragment : List String :=
  ["ftp", "hdl", "http", "gopher", "news", "nntp", "wais", "https", "shttp",
   "snews", "file", "prospero", ""]

/-- `urlparse.uses_query` (CPython 2.7). -/
def uses_query : List String :=
  ["http", "wais", "imap", "https", "shttp", "mms", "gopher", "rtsp", "rtspu",
   "sip", "sips", ""]

/-- `urlparse.uses_params` (CPython 2.7). -/
def uses_params : List String :=
  ["ftp", "hdl", "prospero", "http", "imap", "https", "shttp", "rtsp", "rtspu",
   "sip", "sips", "mms", "", "sftp", "tel"]

/-- `urlparse.scheme_chars` (CPython 2.7). -/
def schemeChars : List Char :=
  "abcdefghijklmnopqrstuvwxyzABCDEFGHIJKLMNOPQRSTUVWXYZ0123456789+-.".data

/-- `urlparse._splitnetloc`: the network-location part runs up to the first
    of `/`, `?`, `#`. -/
def netlocSplit (cs : List Char) : List Char × List Char :=
  let n := cs.takeWhile fun c => ¬ (c = '/' ∨ c = '?' ∨ c = '#')
  (n, cs.drop n.length)

/-- The IPv6-bracket validity check of `urlsplit` (mismatched `[`/`]` in the
    network-location raises `ValueError`). -/
def badIpv6 (netloc : List Char) : Bool :=
  (netloc.contains '[' && !netloc.contains ']') ||
  (netloc.contains ']' && !netloc.contains '[')

/-- The result of `urlparse.urlsplit`. -/
structure SplitResult where
  scheme : List Char
  netloc : List Char
  url : List Char
  query : List Char
  fragment : List Char
deriving DecidableEq

/-- The tail of `urlsplit` after scheme resolution: netloc split (with the
    bracket check), then fragment split (when the scheme uses fragments),
    then query split (when the scheme uses queries).  The `http` fast path
    of CPython's `urlsplit` is this tail with both flags true. -/
def urlsplitTail (scheme : List Char) (uF uQ : Bool) (url0 : List Char) :
    Except Unit SplitResult :=
  match (if url0.take 2 = ['/', '/'] then
           (if badIpv6 (netlocSplit (url0.drop 2)).1 then none
            else some (netlocSplit (url0.drop 2)))
         else some ([], url0)) with
  | none => Except.error ()
  | some nu =>
    let p1 := if uF && nu.2.contains '#' then splitOnce '#' nu.2 else (nu.2, [])
    let p2 := if uQ && p1.1.contains '?' then splitOnce '?' p1.1 else (p1.1, [])
    Except.ok ⟨scheme, nu.1, p2.1, p2.2, p1.2⟩

/-- The general (non-fast-path) continuation of `urlsplit`, with the
    membership tests `scheme in uses_fragment` / `scheme in uses_query`. -/
def urlsplitGeneral (scheme url : List Char) : Except Unit SplitResult :=
  urlsplitTail scheme (uses_fragment.contains (String.mk scheme))
    (uses_query.contains (String.mk scheme)) url

/-- `urlparse.urlsplit(url)` (CPython 2.7, defaults `scheme=''`,
    `allow_fragments=True`): find the first `:`; if a valid scheme stands
    before it (fast path for `http`, otherwise the `scheme_chars` check and
    the port-number exclusion), strip it; then split netloc/fragment/query. -/
def urlsplitL (cs : List Char) : Except Unit SplitResult :=
  match strfind ':' cs with
  | some i =>
    if 0 < i then
      if cs.take i = "http".data then
        urlsplitTail (pyLower (cs.take i)) true true (cs.drop (i + 1))
      else if (cs.take i).all (fun c => schemeChars.contains c) then
        (if cs.drop (i + 1) = [] ∨ ¬ ((cs.drop (i + 1)).all Char.isDigit) then
          urlsplitGeneral (pyLower (cs.take i)) (cs.drop (i + 1))
        else
          urlsplitGeneral [] cs)
      else urlsplitGeneral [] cs
    else urlsplitGeneral [] cs
  | none => urlsplitGeneral [] cs

/-- `urlparse._splitparams`. -/
def splitparams (url : List Char) : List Char × List Char :=
  match (if url.contains '/' then
           (match strrfind '/' url with
            | some j => strfindFrom ';' j url
            | none => none)
         else strfind ';' url) with
  | none => (url, [])
  | some i => (url.take i, url.drop (i + 1))

/-- The result of `urlparse.urlparse`: the six components
    scheme / netloc / path / params / query / fragment. -/
structure UrlParts where
  scheme : List Char
  netloc : List Char
  path : List Char
  params : List Char
  query : List Char
  fragment : List Char
deriving DecidableEq

/-- `urlparse.urlparse(url)`: `urlsplit`, then split path parameters when
    the scheme uses them. -/
def urlparseL (cs : List Char) : Except Unit UrlParts :=
  match urlsplitL cs with
  | Except.error e => Except.error e
  | Except.ok r =>
    let pp := if uses_params.contains (String.mk r.scheme) && r.url.contains ';' then
        splitparams r.url
      else (r.url, [])
    Except.ok ⟨r.scheme, r.netloc, pp.1, pp.2, r.query, r.fragment⟩

/-- `urlparse.urlunsplit`. -/
def urlunsplitL (scheme netloc url query fragment : List Char) : List Char :=
  let u1 := if netloc ≠ [] ∨ (url ≠ [] ∧ url.take 2 = ['/', '/']) then
      ['/', '/'] ++ netloc ++
        (if url ≠ [] ∧ url.take 1 ≠ ['/'] then '/' :: url else url)
    else url
  let u2 := if scheme ≠ [] then scheme ++ ':' :: u1 else u1
  let u3 := if query ≠ [] then u2 ++ '?' :: query else u2
  if fragment ≠ [] then u3 ++ '#' :: fragment else u3

/-- `urlparse.urlunparse`. -/
def urlunparseL (p : UrlParts) : List Char :=
  urlunsplitL p.scheme p.netloc
    (if p.params ≠ [] then p.path ++ ';' :: p.params else p.path)
    p.query p.fragment

/-! ## LinkPattern.sanitize_url -/

/-- Python `url.replace(' ', '%20')`. -/
def pyReplace20 : List Char → List Char
  | [] => []
  | c :: cs =>
    if c = ' ' then '%' :: '2' :: '0' :: pyReplace20 cs else c :: pyReplace20 cs

/-- `locless_schemes` of `LinkPattern.sanitize_url`. -/
def locless_schemes : List String := ["", "mailto", "news"]

/-- The body of `LinkPattern.sanitize_url`, parameterized by the recursive
    call (`self.sanitize_url('http://' + url)` taken when the parsed scheme
    is empty): parse the space-escaped url; on `ValueError` reject; with no
    scheme recurse on `'http://' + url`; reject an empty netloc outside the
    locationless schemes; reject a `:` in any of path/params/query/fragment;
    otherwise reserialize. -/
def sanitizeBody (recurse : String → String) (url : String) : String :=
  match urlparseL (pyReplace20 url.data) with
  | Except.error _ => ""
  | Except.ok p =>
    if p.scheme = [] then recurse ("http://" ++ url)
    else if p.netloc = [] ∧ ¬ locless_schemes.contains (String.mk p.scheme) then ""
    else if (p.path.contains ':' || p.params.contains ':' ||
             p.query.contains ':' || p.fragment.contains ':') then ""
    else String.mk (urlunparseL p)

/-- `LinkPattern.sanitize_url`.  The recursion of the source is bounded by
    depth two (the recursive branch re-parses with scheme `http`, which is
    non-empty; `sanitize_url_recursion_depth_one` below proves that the
    innermost continuation is never reached). -/
def sanitize_url (url : String) : String :=
  sanitizeBody (sanitizeBody (fun _ => "")) url

/-! ## Anchor construction: fixup_link, AutoLink, LinkPattern -/

/-- An anchor element with the attributes this code manipulates.  Every
    anchor built by the two patterns sets all of these, so plain strings
    (rather than optional attributes) model the etree element faithfully
    on the constructed nodes. -/
structure Anchor where
  href : String
  target : String
  title : String
  text : String
deriving DecidableEq

/-- `fixup_link`: set `target="_blank"` and `title` to the link's own
    current `href`. -/
def fixup_link (link : Anchor) : Anchor :=
  { link with target := "_blank", title := link.href }

/-- `AutoLink.handleMatch`: text and href are both the matched `url` group,
    then `fixup_link` is applied.  (`sanitize_url` is not called here.) -/
def autoLinkHandleMatch (url : String) : Anchor :=
  fixup_link { href := url, target := "", title := "", text := url }

/-- Python truthiness of `m.group(9)` (`None` and `""` are both falsy). -/
def pyTruthy : Option String → Bool
  | none => false
  | some s => s ≠ ""

/-- `LinkPattern.handleMatch`: text from group 2; if group 9 is truthy,
    strip an optional `<...>` wrapper (`href[1:-1]`), `strip()`, apply the
    engine-level `unescape` (external engine machinery — taken as a
    parameter), and sanitize; otherwise href is the empty string.  Then
    `fixup_link`. -/
def linkPatternHandleMatch (unescape : String → String) (text : String)
    (href9 : Option String) : Anchor :=
  let el : Anchor :=
    if pyTruthy href9 then
      let h0 := href9.getD ""
      let h1 := if h0.data.take 1 = ['<'] then String.mk (h0.data.drop 1).dropLast else h0
      { href := sanitize_url (unescape (pyStrip h1)), target := "", title := "", text := text }
    else { href := "", target := "", title := "", text := text }
  fixup_link el

/-! ## The autolink regex

`link_regex = r'\b(?P<url>https?://[^\s]+?)(?=[^\w/]*(\s|\Z))'`, compiled by
the engine with `re.UNICODE` and searched left to right.  The embedding gives
the leftmost match with the non-greedy `[^\s]+?` semantics: the shortest
non-empty run of non-whitespace characters after the scheme whose end
position satisfies the lookahead. -/

/-- The lookahead `(?=[^\w/]*(\s|\Z))`: some run of characters that are
    neither word characters nor `/` is followed by whitespace or the end
    of the input. -/
def lookaheadOk : List Char → Bool
  | [] => true
  | c :: rest => isPySpace c || (!isWordChar c && c ≠ '/' && lookaheadOk rest)

/-- The non-greedy `[^\s]+?` bounded by the lookahead: the shortest
    non-empty prefix of non-whitespace characters after which the
    lookahead succeeds. -/
def urlTake : List Char → Option (List Char)
  | [] => none
  | c :: rest =>
    if isPySpace c then none
    else if lookaheadOk rest then some [c]
    else match urlTake rest with
      | some u => some (c :: u)
      | none => none

/-- The `\b` before the scheme: the previous character (if any) is not a
    word character (`h` itself is one). -/
def wordBoundaryBefore : Option Char → Bool
  | none => true
  | some p => !isWordChar p

/-- Left-to-right scan for the leftmost autolink match.  `https?` commits
    to `https://` when that literal is present (the optional `s` is greedy,
    and on failure the shorter alternative cannot match the following
    `://`); a scheme position where `[^\s]+?` has no viable end fails the
    whole start position, and the scan resumes one character later. -/
def autolinkScan : Option Char → List Char → Option (List Char)
  | _, [] => none
  | prev, c :: rest =>
    if wordBoundaryBefore prev && decide ((c :: rest).take 8 = "https://".data) then
      match urlTake (List.drop 8 (c :: rest)) with
      | some u => some ("https://".data ++ u)
      | none => autolinkScan (some c) rest
    else if wordBoundaryBefore prev && decide ((c :: rest).take 7 = "http://".data) then
      match urlTake (List.drop 7 (c :: rest)) with
      | some u => some ("http://".data ++ u)
      | none => autolinkScan (some c) rest
    else autolinkScan (some c) rest

/-- The `url` group captured by `link_regex` on an input, if any. -/
def autolinkFind (s : String) : Option String :=
  (autolinkScan none s.data).map String.mk

/-! ## Pipeline registry (Bugdown.extendMarkdown, block-structure phase) -/

/-- Modelled from the spec: deletion of a named stage from the generic
    engine's ordered registry (`del md.parser.blockprocessors[k]`). -/
def deleteStage (k : String) (l : List String) : List String :=
  l.filter (fun x => x ≠ k)

/-- Modelled from the spec: insertion at an "after Y" precedence anchor
    (the source's `'>Y'` location): the new name goes immediately after
    the anchor entry. -/
def addAfter (anchor k : String) : List String → List String
  | [] => []
  | x :: xs => if x = anchor then x :: k :: xs else x :: addAfter anchor k xs

/-- Modelled from the spec: the generic engine's default block-structure
    stage set, in default order (the external collaborator of §2/§4.1; it
    contains the four stages the source deletes and the `hr` stage the
    source anchors on). -/
def defaultBlockProcessors : List String :=
  ["empty", "indent", "code", "hashheader", "setextheader", "hr", "olist",
   "ulist", "quote", "paragraph"]

/-- The block-structure registry manipulation of `Bugdown.extendMarkdown`:
    `for k in ('hashheader','setextheader','olist','ulist'): del ...` then
    `blockprocessors.add('ulist', UListProcessor(md.parser), '>hr')`. -/
def extendMarkdownBlocks (l : List String) : List String :=
  addAfter "hr" "ulist"
    (deleteStage "ulist" (deleteStage "olist"
      (deleteStage "setextheader" (deleteStage "hashheader" l))))

/-! ## The conversion orchestrator -/

/-- The two failure kinds of §7: the pipeline exceeded the time budget, or
    any other exception was raised while rendering; the source's bare
    `except:` catches both. -/
inductive PipelineError
  | parseTimeout
  | parseFailure
deriving DecidableEq

/-- One record emitted to the logging sink. -/
structure LogRecord where
  level : String
  msg : String
deriving DecidableEq

/-- One hexadecimal digit (lowercase), for `repr`'s hex escapes. -/
def hexDigit (n : Nat) : Char :=
  if n < 10 then Char.ofNat ('0'.toNat + n) else Char.ofNat ('a'.toNat + (n - 10))

/-- A fixed-width lowercase hexadecimal rendering (`%04x`, `%08x`). -/
def hexN : Nat → Nat → List Char
  | 0, _ => []
  | k + 1, v => hexN k (v / 16) ++ [hexDigit (v % 16)]

/-- One character of CPython 2.7 `unicode_repr` (wide build): escape the
    chosen quote and the backslash; codepoints at or above `0x10000` as
    `\U00XXXXXX`, at or above `0x100` as `\uXXXX`; tab/newline/return; and
    other non-printable characters as `\xHH`. -/
def pyReprChar (q c : Char) : List Char :=
  if c = q ∨ c = '\\' then ['\\', c]
  else if 65536 ≤ c.toNat then '\\' :: 'U' :: hexN 8 c.toNat
  else if 256 ≤ c.toNat then '\\' :: 'u' :: hexN 4 c.toNat
  else if c = '\t' then ['\\', 't']
  else if c = '\n' then ['\\', 'n']
  else if c = '\r' then ['\\', 'r']
  else if c.toNat < 32 ∨ 127 ≤ c.toNat then
    ['\\', 'x', hexDigit (c.toNat / 16), hexDigit (c.toNat % 16)]
  else [c]

/-- CPython 2.7 `repr` of a unicode string (the input is unicode text —
    the `re.UNICODE` flag on `_privacy_re` is only effective on unicode
    input): a `u` sign, then single quotes switching to double quotes when
    the string contains a single quote but no double quote, with the
    escaping of `pyReprChar`. -/
def pyRepr (s : String) : String :=
  let q : Char :=
    if s.data.contains (Char.ofNat 39) && !(s.data.contains '"') then '"'
    else Char.ofNat 39
  String.mk ('u' :: q :: listJoin (s.data.map (pyReprChar q)) ++ [q])

/-- `_privacy_re.sub('x', md)`: replace every `\w` character with `x`.
    The regex library's Unicode-aware `\w` class is external machinery (the
    Unicode character database), taken as the parameter `w`; it agrees with
    `isWordChar` on the ASCII range. -/
def privacySub (w : Char → Bool) (md : String) : String :=
  String.mk (md.data.map fun c => if w c then 'x' else c)

/-- `_sanitize_for_log`, for the `\w` class `w`. -/
def _sanitize_for_log (w : Char → Bool) (md : String) : String :=
  pyRepr (privacySub w md)

/-- The literal fallback fragment of `convert`. -/
def humbugFallback : String :=
  "<p>[Humbug note: Sorry, we could not understand the formatting of your message]</p>"

/-- `convert`: the outcome of `timeout(5, _md_engine.convert, md)` is taken
    as a parameter (`Except.error` for a timeout or any raised failure, with
    `tb` standing for `traceback.format_exc()` and `w` for the regex
    library's Unicode-aware `\w` class used by the redaction); on success
    the rendered html is returned with no log record, on any failure the
    literal fallback is returned and exactly one error-level record is
    logged. -/
def convert (w : Char → Bool) (md : String) (outcome : Except PipelineError String)
    (tb : String) : String × List LogRecord :=
  match outcome with
  | Except.ok html => (html, [])
  | Except.error _ =>
    (humbugFallback,
     [⟨"error", "Exception in Markdown parser: " ++ tb ++
        "Input (sanitized) was: " ++ _sanitize_for_log w md⟩])

/-! ## Theorems -/

/-- C4: the URL sanitizer rejects `javascript:alert(1)`, normalizes the
    scheme-less `example.com/a` to `http://example.com/a`, rejects the colon
    in the path of `http://x.com/a:b`, and accepts `mailto:user@example.com`
    despite its empty network-location. -/
theorem sanitize_url_examples :
    sanitize_url "javascript:alert(1)" = "" ∧
    sanitize_url "example.com/a" = "http://example.com/a" ∧
    sanitize_url "http://x.com/a:b" = "" ∧
    sanitize_url "mailto:user@example.com" ≠ "" := by decide

/-- C8: the autolink trigger captures `http://x.com/page` from
    `see http://x.com/page.` (trailing period excluded) and
    `http://x.com/a/b` from `see http://x.com/a/b` (internal slash
    retained). -/
theorem autolink_boundary_examples :
    autolinkFind "see http://x.com/page." = some "http://x.com/page" ∧
    autolinkFind "see http://x.com/a/b" = some "http://x.com/a/b" := by decide

/-- C9 counterexample: after `extendMarkdown` wires the block-structure
    phase, the custom unordered-list matcher is NOT before the
    horizontal-rule stage. -/
theorem ulist_before_hr_counterexample :
    ¬ ((extendMarkdownBlocks defaultBlockProcessors).indexOf "ulist"
        < (extendMarkdownBlocks defaultBlockProcessors).indexOf "hr") := by decide

/-- C9 (amended): the wiring of `Bugdown.extendMarkdown` places the custom
    unordered-list matcher immediately AFTER the horizontal-rule stage
    (the `'>hr'` anchor), so the horizontal-rule stage is consulted first. -/
theorem ulist_registered_after_hr :
    extendMarkdownBlocks defaultBlockProcessors
      = ["empty", "indent", "code", "hr", "ulist", "quote", "paragraph"] ∧
    (extendMarkdownBlocks defaultBlockProcessors).indexOf "hr"
      < (extendMarkdownBlocks defaultBlockProcessors).indexOf "ulist" := by decide

/-- C3 counterexample: the autolink pattern can match `http://x.com/a:b`,
    whose anchor href is the raw URL while the sanitizer maps it to the
    empty string — so the href is not the sanitized URL. -/
theorem autolink_not_sanitized_counterexample :
    autolinkFind "see http://x.com/a:b" = some "http://x.com/a:b" ∧
    (autoLinkHandleMatch "http://x.com/a:b").href ≠ sanitize_url "http://x.com/a:b" := by decide

/-- C3 (amended): for every URL matched by the Autolink pattern, the
    constructed anchor's href and text are both the literal matched URL;
    `AutoLink.handleMatch` does not pass the URL through `sanitize_url`. -/
theorem autolink_href_literal (url : String) :
    (autoLinkHandleMatch url).href = url ∧ (autoLinkHandleMatch url).text = url :=
  ⟨rfl, rfl⟩

/-- Witness for `autolink_href_literal` at a concrete URL. -/
theorem autolink_href_literal_witness :
    (autoLinkHandleMatch "http://x.com/a").href = "http://x.com/a" ∧
    (autoLinkHandleMatch "http://x.com/a").text = "http://x.com/a" :=
  autolink_href_literal "http://x.com/a"

/-- C5: every anchor produced by the Link and Autolink patterns carries
    `target="_blank"` and a `title` equal to the anchor's own href — for
    every display text, every captured (or absent/empty) raw href of the
    Link pattern, every engine-level unescape function, and every autolinked
    URL. -/
theorem anchor_fixup_invariant (unescape : String → String) (text : String)
    (href9 : Option String) (url : String) :
    ((linkPatternHandleMatch unescape text href9).target = "_blank" ∧
     (linkPatternHandleMatch unescape text href9).title
        = (linkPatternHandleMatch unescape text href9).href) ∧
    ((autoLinkHandleMatch url).target = "_blank" ∧
     (autoLinkHandleMatch url).title = (autoLinkHandleMatch url).href) :=
  ⟨⟨rfl, rfl⟩, ⟨rfl, rfl⟩⟩

/-- Witness for `anchor_fixup_invariant` with an absent href. -/
theorem anchor_fixup_invariant_witness :
    ((linkPatternHandleMatch id "t" none).target = "_blank" ∧
     (linkPatternHandleMatch id "t" none).title = (linkPatternHandleMatch id "t" none).href) ∧
    ((autoLinkHandleMatch "http://a.b/c").target = "_blank" ∧
     (autoLinkHandleMatch "http://a.b/c").title = (autoLinkHandleMatch "http://a.b/c").href) :=
  anchor_fixup_invariant id "t" none "http://a.b/c"

/-- C1: for every input, every `\w` class and every pipeline outcome
    (success, timeout or failure), `convert` returns a string: the rendered
    html on success and the fallback fragment otherwise; no exception
    escapes the orchestrator. -/
theorem convert_always_returns (w : Char → Bool) (md tb : String)
    (outcome : Except PipelineError String) :
    (∃ h, outcome = Except.ok h ∧ (convert w md outcome tb).1 = h) ∨
    ((∃ e, outcome = Except.error e) ∧ (convert w md outcome tb).1 = humbugFallback) := by
  cases outcome with
  | ok h => exact Or.inl ⟨h, rfl, rfl⟩
  | error e => exact Or.inr ⟨⟨e, rfl⟩, rfl⟩

/-- Witness for `convert_always_returns` at a successful outcome. -/
theorem convert_always_returns_witness :
    (∃ h, (Except.ok "x" : Except PipelineError String) = Except.ok h ∧
       (convert isWordChar "m" (Except.ok "x") "t").1 = h) ∨
    ((∃ e, (Except.ok "x" : Except PipelineError String) = Except.error e) ∧
       (convert isWordChar "m" (Except.ok "x") "t").1 = humbugFallback) :=
  convert_always_returns isWordChar "m" "t" (Except.ok "x")

/-- C2 counterexample: on a failure, `convert` does not return the fragment
    `<p>[Note: ...]</p>` claimed by the spec (the source literal says
    `[Humbug note: ...]`). -/
theorem fallback_literal_counterexample :
    (convert isWordChar "hello" (Except.error PipelineError.parseFailure) "tb").1
      ≠ "<p>[Note: Sorry, we could not understand the formatting of your message]</p>" := by
  decide

/-- C2 (amended): on every pipeline failure `convert` returns exactly the
    literal fragment `<p>[Humbug note: Sorry, we could not understand the
    formatting of your message]</p>` and emits exactly one error-level log
    record whose rendering of the input replaces every character of the
    (Unicode-aware) `\w` class `w` with the filler `x` and is then passed
    through the `repr` escaping transform; the redaction is never skipped. -/
theorem convert_failure_fallback_and_redacted_log (w : Char → Bool) (md tb : String)
    (e : PipelineError) :
    convert w md (Except.error e) tb
      = ("<p>[Humbug note: Sorry, we could not understand the formatting of your message]</p>",
         [⟨"error", "Exception in Markdown parser: " ++ tb ++ "Input (sanitized) was: "
             ++ pyRepr (privacySub w md)⟩]) ∧
    ∀ c ∈ (privacySub w md).data, w c = true → c = 'x' := by
  refine ⟨rfl, ?_⟩
  intro c hc hw
  rcases List.mem_map.mp hc with ⟨a, _, rfl⟩
  by_cases h : w a = true
  · simp [h]
  · simp [h] at hw

/-- Witness for `convert_failure_fallback_and_redacted_log` at a concrete
    failing input. -/
theorem convert_failure_fallback_and_redacted_log_witness :
    convert isWordChar "ab!" (Except.error PipelineError.parseFailure) "tb"
      = ("<p>[Humbug note: Sorry, we could not understand the formatting of your message]</p>",
         [⟨"error", "Exception in Markdown parser: " ++ "tb" ++ "Input (sanitized) was: "
             ++ pyRepr (privacySub isWordChar "ab!")⟩]) :=
  (convert_failure_fallback_and_redacted_log isWordChar "ab!" "tb" PipelineError.parseFailure).1

/-! ### Helper lemmas for the bullet-line grammar -/

/-- Dropping the length of the matched space run is `dropWhile`. -/
theorem drop_takeWhile_length (p : Char → Bool) (l : List Char) :
    l.drop (l.takeWhile p).length = l.dropWhile p := by
  induction l with
  | nil => rfl
  | cons x xs ih =>
    by_cases hp : p x
    · simp [List.takeWhile_cons, List.dropWhile_cons, hp, ih]
    · simp [List.takeWhile_cons, List.dropWhile_cons, hp]

/-- The space run matched by `[ ]{0,3}`/`[ ]+` is literally a run of spaces. -/
theorem takeWhile_spaces_eq_replicate (l : List Char) :
    l.takeWhile (fun c => c = ' ')
      = List.replicate (l.takeWhile (fun c => c = ' ')).length ' ' := by
  induction l with
  | nil => rfl
  | cons x xs ih =>
    by_cases hx : x = ' '
    · subst hx
      simp [List.takeWhile_cons, List.replicate_succ]
      exact ih
    · simp [List.takeWhile_cons, hx]

/-- `takeWhile` on a space run followed by a star stops at the star. -/
theorem takeWhile_replicate_star (a : Nat) (u : List Char) :
    (List.replicate a ' ' ++ '*' :: u).takeWhile (fun c => c = ' ')
      = List.replicate a ' ' := by
  induction a with
  | zero => simp [List.takeWhile_cons]
  | succ n ih => simp [List.replicate_succ, List.takeWhile_cons, ih]

/-- The bullet-line regex at the `List Char` level: it accepts exactly a run
    of at most three spaces, a `*`, and at least one further space. -/
theorem liMatchL_iff (cs : List Char) :
    liMatchL cs = true ↔
      ∃ a t, a ≤ 3 ∧ cs = List.replicate a ' ' ++ '*' :: ' ' :: t := by
  constructor
  · intro h
    simp only [liMatchL, Bool.and_eq_true, decide_eq_true_eq] at h
    obtain ⟨h1, h2⟩ := h
    rw [drop_takeWhile_length] at h2
    split at h2
    · rename_i t heq
      refine ⟨(cs.takeWhile (fun c => c = ' ')).length, t, h1, ?_⟩
      conv_lhs => rw [← List.takeWhile_append_dropWhile (p := fun c => c = ' ') (l := cs)]
      rw [heq, ← takeWhile_spaces_eq_replicate]
    · cases h2
  · rintro ⟨a, t, ha, rfl⟩
    have hdrop : (List.replicate a ' ' ++ '*' :: ' ' :: t).drop a = '*' :: ' ' :: t := by
      have h := List.drop_left (List.replicate a ' ') ('*' :: ' ' :: t)
      rwa [List.length_replicate] at h
    simp only [liMatchL, takeWhile_replicate_star, List.length_replicate, hdrop,
      Bool.and_eq_true, decide_eq_true_eq]
    exact ⟨ha, trivial⟩

/-- C7: the custom unordered-list matcher accepts as a bullet line exactly
    zero-to-three leading spaces, the single glyph `*`, one or more spaces,
    then content; lines starting with `- ` or `+ ` are never matched, lines
    starting with `* ` always are. -/
theorem ulist_bullet_grammar :
    (∀ s : String, liMatch ("- " ++ s) = false) ∧
    (∀ s : String, liMatch ("+ " ++ s) = false) ∧
    (∀ s : String, liMatch ("* " ++ s) = true) ∧
    (∀ l : String, liMatch l = true ↔
      ∃ a b rest, a ≤ 3 ∧ 1 ≤ b ∧
        l.data = List.replicate a ' ' ++ '*' :: (List.replicate b ' ' ++ rest)) := by
  refine ⟨fun s => rfl, fun s => rfl, fun s => rfl, fun l => ?_⟩
  rw [show liMatch l = liMatchL l.data from rfl, liMatchL_iff]
  constructor
  · rintro ⟨a, t, ha, heq⟩
    exact ⟨a, 1, t, ha, le_refl 1, by simpa [List.replicate_one] using heq⟩
  · rintro ⟨a, b, rest, ha, hb, heq⟩
    obtain ⟨b2, rfl⟩ : ∃ b2, b = b2 + 1 := ⟨b - 1, by omega⟩
    exact ⟨a, List.replicate b2 ' ' ++ rest, ha, by simpa [List.replicate_succ] using heq⟩

/-- Witness for `ulist_bullet_grammar` at concrete lines. -/
theorem ulist_bullet_grammar_witness :
    liMatch ("- " ++ "x") = false ∧ liMatch ("+ " ++ "x") = false ∧
      liMatch ("* " ++ "x") = true :=
  ⟨ulist_bullet_grammar.1 "x", ulist_bullet_grammar.2.1 "x", ulist_bullet_grammar.2.2.1 "x"⟩

/-! ### Helper lemmas for the sanitizer recursion depth -/

/-- `urlsplit` always reports the scheme it was given by the scheme
    resolution step. -/
theorem urlsplitTail_ok_scheme (scheme : List Char) (uF uQ : Bool) (url : List Char)
    (r : SplitResult) (h : urlsplitTail scheme uF uQ url = Except.ok r) :
    r.scheme = scheme := by
  unfold urlsplitTail at h
  split at h
  · cases h
  · cases h
    rfl

/-- On an input whose first colon closes the literal scheme `http`,
    `urlsplit` takes the fast path. -/
theorem urlsplitL_http (rest : List Char) :
    urlsplitL ('h' :: 't' :: 't' :: 'p' :: ':' :: rest)
      = urlsplitTail "http".data true true rest := rfl

/-- A parse of a string that starts with `http:` reports scheme `http`. -/
theorem urlparseL_http_scheme (rest : List Char) (p : UrlParts)
    (h : urlparseL ('h' :: 't' :: 't' :: 'p' :: ':' :: rest) = Except.ok p) :
    p.scheme = "http".data := by
  unfold urlparseL at h
  rw [urlsplitL_http rest] at h
  cases hr : urlsplitTail "http".data true true rest with
  | error e => rw [hr] at h; cases h
  | ok r =>
    rw [hr] at h
    cases h
    exact urlsplitTail_ok_scheme _ _ _ _ _ hr

/-- The recursive branch of `sanitize_url` never fires on a `http://`
    input: its parse has the non-empty scheme `http`, so the continuation
    passed to `sanitizeBody` is irrelevant there. -/
theorem sanitizeBody_http (f g : String → String) (s : String) :
    sanitizeBody f ("http://" ++ s) = sanitizeBody g ("http://" ++ s) := by
  have hdata : pyReplace20 ("http://" ++ s).data
      = 'h' :: 't' :: 't' :: 'p' :: ':' :: '/' :: '/' :: pyReplace20 s.data := by
    have h0 : ("http://" ++ s).data
        = 'h' :: 't' :: 't' :: 'p' :: ':' :: '/' :: '/' :: s.data := by
      rw [String.data_append]
      rfl
    rw [h0]
    simp [pyReplace20]
  unfold sanitizeBody
  rw [hdata]
  cases hp : urlparseL ('h' :: 't' :: 't' :: 'p' :: ':' :: '/' :: '/' :: pyReplace20 s.data) with
  | error e => rfl
  | ok p =>
    have hs : p.scheme ≠ [] := by
      rw [urlparseL_http_scheme _ _ hp]
      decide
    dsimp only
    rw [if_neg hs, if_neg hs]

/-- The recursion of `sanitizeBody` is insensitive to the continuation as
    long as both agree at the single recursion point. -/
theorem sanitizeBody_congr (f g : String → String) (u : String)
    (h : f ("http://" ++ u) = g ("http://" ++ u)) :
    sanitizeBody f u = sanitizeBody g u := by
  unfold sanitizeBody
  cases hp : urlparseL (pyReplace20 u.data) with
  | error e => rfl
  | ok p =>
    dsimp only
    by_cases hs : p.scheme = []
    · rw [if_pos hs, if_pos hs, h]
    · rw [if_neg hs, if_neg hs]

/-- C10: `sanitize_url` terminates with recursion depth at most one: for
    every input, unrolling the source's recursion to depth two with an
    arbitrary continuation in the innermost position already computes
    `sanitize_url` — the scheme-absent branch, once taken, re-parses
    `http://`-prefixed input whose scheme is the non-empty `http`, so the
    branch cannot be taken twice. -/
theorem sanitize_url_recursion_depth_one (f : String → String) (u : String) :
    sanitizeBody (sanitizeBody f) u = sanitize_url u := by
  unfold sanitize_url
  exact sanitizeBody_congr _ _ u (sanitizeBody_http f (fun _ => "") u)

/-- Witness for `sanitize_url_recursion_depth_one` at a concrete input
    that does take the recursive branch once. -/
theorem sanitize_url_recursion_depth_one_witness :
    sanitizeBody (sanitizeBody (fun x => x)) "example.com/a" = sanitize_url "example.com/a" :=
  sanitize_url_recursion_depth_one (fun x => x) "example.com/a"

/-! ### Helper lemmas for the hanging-list preprocessor -/

/-- Peeling the first index off a `flatMap` over `List.range`. -/
theorem flatMap_range_succ_shift (f : Nat → List String) (n : Nat) :
    (List.range (n + 1)).flatMap f = f 0 ++ (List.range n).flatMap (fun i => f (i + 1)) := by
  induction n with
  | zero =>
    rw [show List.range 1 = [0] from rfl]
    simp
  | succ n ih =>
    rw [List.range_succ (n := n + 1), List.flatMap_append, ih,
      List.range_succ (n := n), List.flatMap_append, List.append_assoc]
    simp

/-- Shifting `hangingSeg` past the head line advances the fence state. -/
theorem hangingSeg_shift (x y : String) (rest : List String) (fence : Option String) :
    (fun i => hangingSeg (x :: y :: rest) fence (i + 1))
      = hangingSeg (y :: rest) (fenceStep fence x) := by
  funext i
  rfl

/-- The run of `BugdownUListPreprocessor` started in any fence state equals
    the claim's per-position description of the output. -/
theorem bugdownUListRunAux_spec (lines : List String) (fence : Option String) :
    bugdownUListRunAux fence lines =
      (List.range (lines.length - 1)).flatMap (hangingSeg lines fence) ++
      lines.drop (lines.length - 1) := by
  induction lines generalizing fence with
  | nil => rfl
  | cons x xs ih =>
    cases xs with
    | nil => rfl
    | cons y rest =>
      have hn : (x :: y :: rest).length - 1 = ((y :: rest).length - 1) + 1 := rfl
      rw [hn, flatMap_range_succ_shift, hangingSeg_shift, List.append_assoc]
      have hseg0 : hangingSeg (x :: y :: rest) fence 0
          = x :: (if fenceStep fence x = none ∧ x ≠ "" ∧ liMatch y = true ∧ liMatch x = false
                  then [""] else []) := rfl
      have hdrop : (x :: y :: rest).drop (((y :: rest).length - 1) + 1)
          = (y :: rest).drop ((y :: rest).length - 1) := rfl
      rw [hseg0, hdrop]
      simp only [bugdownUListRunAux]
      by_cases hc : (fenceStep fence x = none ∧ x ≠ "" ∧ liMatch y = true ∧ liMatch x = false)
      · rw [if_pos hc, if_pos hc, ih]
        rfl
      · rw [if_neg hc, if_neg hc, ih]
        rfl

/-- The preprocessor only inserts: the input is a sublist of the output. -/
theorem sublist_bugdownUListRunAux (lines : List String) (fence : Option String) :
    List.Sublist lines (bugdownUListRunAux fence lines) := by
  induction lines generalizing fence with
  | nil => exact List.Sublist.refl _
  | cons x xs ih =>
    cases xs with
    | nil => exact List.Sublist.refl _
    | cons y rest =>
      simp only [bugdownUListRunAux]
      split
      · exact List.Sublist.cons₂ x (List.Sublist.cons "" (ih _))
      · exact List.Sublist.cons₂ x (ih _)

/-- C6: the hanging-list preprocessor returns exactly the original lines in
    order with an empty line inserted between positions `i` and `i+1`
    precisely under the claim's condition (line `i` non-empty, not a bullet
    line, line `i+1` a bullet line, pair not inside an open fenced region);
    in particular the input is a sublist of the output, so the output only
    ever gains empty lines and is the same length or longer. -/
theorem hanging_ulist_preprocessor_spec (lines : List String) :
    bugdownUListRun lines = hangingSpec lines ∧
    List.Sublist lines (bugdownUListRun lines) :=
  ⟨bugdownUListRunAux_spec lines none, sublist_bugdownUListRunAux lines none⟩

/-- Witness for `hanging_ulist_preprocessor_spec` at the spec §8 example. -/
theorem hanging_ulist_preprocessor_spec_witness :
    bugdownUListRun ["hello", "* item"] = hangingSpec ["hello", "* item"] ∧
    List.Sublist ["hello", "* item"] (bugdownUListRun ["hello", "* item"]) :=
  hanging_ulist_preprocessor_spec ["hello", "* item"]
